import Mathlib

/-!
# cozynsmdeploy: the remote provisioning orchestrator of `deploy.go`

A shallow embedding of `deploy.go`.  Go strings and file contents are Lean
`String`s (one Lean character stands for one Go byte or rune, which is exact
on ASCII text).  The process state that the Go code reaches through package
variables, the local filesystem, the network and the remote hosts is made
explicit as `Globals` and `World`; a Go run-time panic is the error branch of
`Except`.  The outside world (ssh, sftp, the remote shell, the template
files) is a set of fields of `World`, so that every theorem quantifies over
it.
-/

namespace Deploy

/-! ## Data model (deploy.go, lines 21-78) -/

/-- Template for SSH Server Credentials (`type ServerCred struct`). -/
structure ServerCred where
  IP : String
  User : String
  Password : String
deriving DecidableEq

/-- CozyStack Deployment Configurations (`type Configs struct`). -/
structure Configs where
  IP : String
  Workers : String
  CollectionInterface : String
  Domain : String
  IpaPassword : String
  AppInterface : String
  ESRam : String
deriving DecidableEq

/-- Template for interface lists (`type ServerConfigs struct`). -/
structure ServerConfigs where
  Interface : List String
  AppInterface : List String
  IP : String
deriving DecidableEq

/-- The package-level variables of `deploy.go`: the archive and template file
names set by `main`, and the two credentials set by `configure`. -/
structure Globals where
  AppFiles : String
  SensorFiles : String
  AppTemplate : String
  SensorTemplate : String
  appCred : ServerCred
  sensorCred : ServerCred
deriving DecidableEq

/-- The assignments at the start of `main` (lines 30-34); the credentials have
Go's zero value until `configure` sets them. -/
def main : Globals :=
  { AppFiles := "App.tar.gz"
    SensorFiles := "Sensor.tar.gz"
    AppTemplate := "AppDeploy.gtpl"
    SensorTemplate := "SensorDeploy.gtpl"
    appCred := ⟨"", "", ""⟩
    sensorCred := ⟨"", "", ""⟩ }

/-! ## The outside world -/

/-- A Go run-time panic. -/
inductive Panic where
  | nilPointer
  | indexOutOfRange
deriving DecidableEq

/-- What the process does to the outside, in the order it does it: a line
printed with `fmt.Println`, a call of `copyFile`, a call of `remoteCommand`, a
call of `os.Remove`. -/
inductive Event where
  | println (line : String)
  | copyFile (sc : ServerCred) (source destination : String)
  | remoteCommand (sc : ServerCred) (command : String)
  | remove (name : String)
deriving DecidableEq

/-- How the transport answers one remote operation.  `dial`: `ssh.Dial`
returns an error (host unreachable, authentication rejected).  `newClient`:
`sftp.NewClient` returns an error.  `create`: `client.Create` returns an
error.  `copy n`: `io.Copy` returns an error after `n` characters went
through.  `newSession`: `conn.NewSession` returns an error.  `run`:
`session.Run` returns an error (non-zero exit status, lost connection).  An
answer that names a call the operation does not make (`create` for a command,
`newSession` for a copy) leaves the operation without failure. -/
inductive Fault where
  | none
  | dial
  | newClient
  | create
  | copy (n : Nat)
  | newSession
  | run
deriving DecidableEq

/-- A filesystem: the content of each path that exists. -/
abbrev Fs := String → Option String

/-- Replace one entry of a filesystem. -/
def Fs.set (fs : Fs) (name : String) (content : Option String) : Fs :=
  fun p => if p = name then content else fs p

/-- One node of a parsed template: literal text, or the action that prints
the field `name` of the data (written name-between-double-braces, with a
leading dot, in the template file). -/
inductive Node where
  | text (s : String)
  | field (name : String)
deriving DecidableEq

/-- A parsed template, as `template.ParseFiles` returns it. -/
abbrev Template := List Node

/-- Everything outside the Go code.  `localFs`: the files of the working
directory.  `readOnly`: the local names that `os.Create` cannot create.
`parseFiles`: what `template.ParseFiles` gives for a file name (`none`: an
error, and a nil template).  `remoteFs`: the files of each host, by address.
`shell`: what a command line does on a host: its output and the files after
it.  `faults`: the answers of the transport to the successive remote
operations (past the end of the list every operation succeeds).  `trace`: the
events so far.  `markup`: what `Execute` of `html/template` writes, and
whether its escaping pass fails, for a template whose literal text has a `<`;
there the library escapes by HTML context (tags, attributes, comments,
here-documents read as tags), which is left open. -/
structure World where
  localFs : Fs
  readOnly : String → Bool
  parseFiles : String → Option Template
  markup : Template → Configs → String × Bool
  remoteFs : String → Fs
  shell : String → String → Fs → String × Fs
  faults : List Fault
  trace : List Event

/-- A computation that may panic; the world at the moment of the panic is
kept. -/
abbrev Go (α : Type) := Except (Panic × World) α

/-- Append an event to the trace. -/
def World.record (w : World) (e : Event) : World :=
  { w with trace := w.trace ++ [e] }

/-- Take the transport's answer for the next remote operation. -/
def World.nextFault (w : World) : Fault × World :=
  (w.faults.headD Fault.none, { w with faults := w.faults.tail })

/-- Replace the files of one host. -/
def World.setRemote (w : World) (host : String) (fs : Fs) : World :=
  { w with remoteFs := fun h => if h = host then fs else w.remoteFs h }

/-- The events that are not progress lines. -/
def effects (t : List Event) : List Event :=
  t.filter fun e => match e with
    | Event.println _ => false
    | _ => true

/-- `fmt.Println`. -/
def println (line : String) (w : World) : World :=
  w.record (Event.println line)

/-- `os.Remove`: the file is gone afterwards (a missing file is an error,
which the callers discard). -/
def osRemove (name : String) (w : World) : World :=
  let w := w.record (Event.remove name)
  { w with localFs := w.localFs.set name none }

/-! ## copyFile (lines 80-107) -/

/-- The packet size given to `sftp.MaxPacket` (line 97). -/
def size : Nat := 1 <<< 15

/-- One write of an open remote file: `p` goes to offset `off`, over what was
there; a gap before `off` is filled with zero characters. -/
def writeAt (file : List Char) (off : Nat) (p : List Char) : List Char :=
  file.take off ++ List.replicate (off - file.length) (Char.ofNat 0) ++ p
    ++ file.drop (off + p.length)

/-- The loop of `io.Copy` into an sftp file: read at most `maxPacket`
characters, write them at the current offset, advance; stop at end of input. -/
def ioCopyLoop (maxPacket : Nat) : Nat → List Char → Nat → List Char → List Char
  | 0, _, _, file => file
  | fuel + 1, src, off, file =>
    match src.take maxPacket with
    | [] => file
    | p => ioCopyLoop maxPacket fuel (src.drop maxPacket) (off + p.length) (writeAt file off p)

/-- `io.Copy(w, f)` where `w` was just opened by `client.Create`, which
truncates: the file starts empty and the offset at 0.  The loop runs at most
once per character of the source, plus once to see the end. -/
def ioCopy (src : String) : String :=
  String.mk (ioCopyLoop size (src.length + 1) src.data 0 [])

/-- Copy a file from the host to a server (like SCP).  Every error value is
discarded (`_`); a handle that could not be obtained is nil, and the first
use of a nil `*ssh.Client`, `*sftp.Client` or `*sftp.File` panics.  A nil
`*os.File` (the source could not be opened) does not panic: reading from it
fails at once and nothing is copied. -/
def copyFile (sc : ServerCred) (source destination : String) (w : World) : Go World :=
  let w := w.record (Event.copyFile sc source destination)
  let (fault, w) := w.nextFault
  match fault with
  | Fault.dial => Except.error (Panic.nilPointer, w)
  | Fault.newClient => Except.error (Panic.nilPointer, w)
  | Fault.create => Except.error (Panic.nilPointer, w)
  | fault =>
    let src := (w.localFs source).getD ""
    let sent := match fault with
      | Fault.copy n => String.mk (src.data.take n)
      | _ => src
    Except.ok (w.setRemote sc.IP ((w.remoteFs sc.IP).set destination (some (ioCopy sent))))

/-! ## remoteCommand (lines 109-134) -/

/-- Run a command on a remote machine over SSH; returns the output.  Every
error value is discarded; a nil `*ssh.Client` or `*ssh.Session` panics at its
first use (`defer conn.Close()`, `session.Stdout = &b`).  The error of
`session.Run` is discarded and the captured output is returned. -/
def remoteCommand (sc : ServerCred) (command : String) (w : World) : Go (String × World) :=
  let w := w.record (Event.remoteCommand sc command)
  let (fault, w) := w.nextFault
  match fault with
  | Fault.dial => Except.error (Panic.nilPointer, w)
  | Fault.newSession => Except.error (Panic.nilPointer, w)
  | _ =>
    let (out, fs) := w.shell sc.IP command (w.remoteFs sc.IP)
    Except.ok (out, w.setRemote sc.IP fs)

/-! ## The two pipelines started by deploy (lines 202-224) -/

/-- The first goroutine of `deploy` (lines 202-212). -/
def sensorPipeline (g : Globals) (w : World) : Go World := do
  let w := println "Transferring Sensor files." w
  let w ← copyFile g.sensorCred ("./" ++ g.SensorFiles) ("/tmp/" ++ g.SensorFiles) w
  let (_, w) ← remoteCommand g.sensorCred ("tar xzvf /tmp/" ++ g.SensorFiles ++ " -C /tmp") w
  let w ← copyFile g.sensorCred "./SensorDeploy.sh" "/tmp/Sensor/SensorDeploy.sh" w
  let w := osRemove "./SensorDeploy.sh" w
  let w := println "Transferring Sensor files: Complete" w
  let w := println "Sensor Server build started." w
  let (_, w) ← remoteCommand g.sensorCred "cd /tmp/Sensor; /bin/bash /tmp/Sensor/SensorDeploy.sh" w
  let w := println "Sensor Server Deployed." w
  return w

/-- The second goroutine of `deploy` (lines 214-224). -/
def appPipeline (g : Globals) (w : World) : Go World := do
  let w := println "Transferring Application files." w
  let w ← copyFile g.appCred ("./" ++ g.AppFiles) ("/tmp/" ++ g.AppFiles) w
  let (_, w) ← remoteCommand g.appCred ("tar xzvf /tmp/" ++ g.AppFiles ++ " -C /tmp") w
  let w ← copyFile g.appCred "./AppDeploy.sh" "/tmp/application/AppDeploy.sh" w
  let w := osRemove "./AppDeploy.sh" w
  let w := println "Transferring Application Server files: Complete" w
  let w := println "Application Server build started." w
  let (_, w) ← remoteCommand g.appCred "cd /tmp/application; /bin/bash /tmp/Application/AppDeploy.sh" w
  let w := println "Application Server Deployed." w
  return w

/-- The two roles. -/
inductive Role where
  | sensor
  | application
deriving DecidableEq

/-- The pipeline of a role. -/
def pipeline (g : Globals) : Role → World → Go World
  | Role.sensor => sensorPipeline g
  | Role.application => appPipeline g

/-- The common shape of the two goroutines, with the credential, the four
progress lines, the two transfers and the two commands as parameters. -/
def steps (sc : ServerCred) (l1 a1 a2 c1 s1 s2 l2 l3 c2 l4 : String) (w : World) : Go World := do
  let w := println l1 w
  let w ← copyFile sc a1 a2 w
  let (_, w) ← remoteCommand sc c1 w
  let w ← copyFile sc s1 s2 w
  let w := osRemove s1 w
  let w := println l2 w
  let w := println l3 w
  let (_, w) ← remoteCommand sc c2 w
  let w := println l4 w
  return w

/-- The events of a complete run of `steps`. -/
def script (sc : ServerCred) (l1 a1 a2 c1 s1 s2 l2 l3 c2 l4 : String) : List Event :=
  [ Event.println l1, Event.copyFile sc a1 a2, Event.remoteCommand sc c1,
    Event.copyFile sc s1 s2, Event.remove s1, Event.println l2, Event.println l3,
    Event.remoteCommand sc c2, Event.println l4 ]

/-- The transport's answers that leave the operation with all its handles:
the connection, the sftp client, the remote file and the session were
obtained; what can still fail is the copy itself or the command. -/
def Fault.handleObtained : Fault → Bool
  | Fault.none => true
  | Fault.copy _ => true
  | Fault.run => true
  | _ => false

/-- The credential a call carries. -/
def Event.cred : Event → Option ServerCred
  | Event.copyFile sc _ _ => some sc
  | Event.remoteCommand sc _ => some sc
  | _ => none

/-- The paths and command lines a call carries. -/
def Event.texts : Event → List String
  | Event.println line => [line]
  | Event.copyFile _ source destination => [source, destination]
  | Event.remoteCommand _ command => [command]
  | Event.remove name => [name]

/-- The text `t` contains `m` as a substring. -/
def mentions (t m : String) : Prop := m.data <:+: t.data

instance (t m : String) : Decidable (mentions t m) :=
  inferInstanceAs (Decidable (m.data <:+: t.data))

/-- The archive, script and directory names of the sensor role. -/
def sensorPaths : List String := ["Sensor.tar.gz", "SensorDeploy.sh", "/tmp/Sensor"]

/-- The archive, script and directory names of the application role. -/
def appPaths : List String :=
  ["App.tar.gz", "AppDeploy.sh", "/tmp/application", "/tmp/Application"]

/-- The events a run added to the trace it started from. -/
def added (w : World) (r : Go World) : List Event :=
  match r with
  | Except.ok w' => w'.trace.drop w.trace.length
  | Except.error (_, w') => w'.trace.drop w.trace.length

/-- A world for examples: an empty working directory and network, a shell
that prints nothing and changes nothing. -/
def emptyWorld : World :=
  { localFs := fun _ => none
    readOnly := fun _ => false
    parseFiles := fun _ => none
    markup := fun _ _ => ("", true)
    remoteFs := fun _ _ => none
    shell := fun _ _ fs => ("", fs)
    faults := []
    trace := [] }

/-- The trace of a run, whether it ended normally or in a panic. -/
def traceOf : Go World → List Event
  | Except.ok w => w.trace
  | Except.error (_, w) => w.trace

/-- Whether a run ended in a panic. -/
def panicked {α : Type} : Go α → Bool
  | Except.ok _ => false
  | Except.error _ => true

/-- A world in which every step of a pipeline fails without losing a handle:
both copies break off and both commands fail. -/
def failingWorld : World :=
  { emptyWorld with faults := [Fault.copy 3, Fault.run, Fault.copy 0, Fault.run] }

/-- A world in which the local file `a.txt` holds `new` and the host
`10.0.0.5` already has a longer file at `/tmp/a.txt`. -/
def overwriteWorld : World :=
  { emptyWorld with
    localFs := fun p => if p = "a.txt" then some "new" else none
    remoteFs := fun h p =>
      if h = "10.0.0.5" ∧ p = "/tmp/a.txt" then some "older and longer content" else none }

/-! ## The script renderer: html/template (line 7, lines 189-200) -/

/-- The replacement table of the escaper that `html/template` puts on an
action in HTML text: NUL, the two quotes, `&`, `+`, `<` and `>` are replaced,
every other character is kept. -/
def htmlEscapeChar (c : Char) : List Char :=
  if c = Char.ofNat 0 then [Char.ofNat 0xFFFD]
  else if c = Char.ofNat 34 then "&#34;".data
  else if c = '&' then "&amp;".data
  else if c = Char.ofNat 39 then "&#39;".data
  else if c = '+' then "&#43;".data
  else if c = '<' then "&lt;".data
  else if c = '>' then "&gt;".data
  else [c]

/-- The escaper applied to a whole value. -/
def htmlEscape (s : String) : String :=
  String.mk (s.data.flatMap htmlEscapeChar)

/-- The exported fields of `Configs`, by name, as the template engine looks
them up. -/
def Configs.field (c : Configs) (name : String) : Option String :=
  if name = "IP" then some c.IP
  else if name = "Workers" then some c.Workers
  else if name = "CollectionInterface" then some c.CollectionInterface
  else if name = "Domain" then some c.Domain
  else if name = "IpaPassword" then some c.IpaPassword
  else if name = "AppInterface" then some c.AppInterface
  else if name = "ESRam" then some c.ESRam
  else none

/-- Whether the literal text of a template has no `<`.  The escaping pass of
`html/template` then stays in HTML text from the first character to the
last: it leaves the text as it is and puts the escaper of HTML text on every
action. -/
def plain (t : Template) : Bool :=
  t.all fun n => match n with
    | Node.text s => !s.data.contains '<'
    | Node.field _ => true

/-- Whether an action of the template names a field that `Configs` does not
have. -/
def missingField (t : Template) (c : Configs) : Bool :=
  t.any fun n => match n with
    | Node.text _ => false
    | Node.field name => (c.field name).isNone

/-- `t.Execute(wf, c)` for a template whose text has no `<`: the text nodes
are written as they are, the value of a field is written escaped, and at an
action naming a field that `Configs` does not have the execution stops with
an error, what was written before staying written.  The result is the text
written and whether an error was returned. -/
def executePlain : Template → Configs → String × Bool
  | [], _ => ("", false)
  | Node.text s :: rest, c =>
    let (out, err) := executePlain rest c
    (s ++ out, err)
  | Node.field name :: rest, c =>
    match c.field name with
    | none => ("", true)
    | some v =>
      let (out, err) := executePlain rest c
      (htmlEscape v ++ out, err)

/-- `t.Execute(wf, c)` of `html/template`: the text written and whether an
error was returned.  For a template with a `<` in its text the text written
is what `markup` (the field of the world) says; an error is returned when
`markup` has one or when an action names a field that `Configs` does not have,
since every action of these templates is executed. -/
def execute (markup : Template → Configs → String × Bool) (t : Template) (c : Configs) :
    String × Bool :=
  if plain t then executePlain t c
  else ((markup t c).1, (markup t c).2 || missingField t c)

/-- `os.Create`: the file handle (`none`: nil, the file could not be
created); a created file is empty. -/
def osCreate (name : String) (w : World) : Option String × World :=
  if w.readOnly name then (none, w)
  else (some name, { w with localFs := w.localFs.set name (some "") })

/-- `wf := bufio.NewWriter(f); t.Execute(wf, c); wf.Flush()` (lines 193-195
and 198-200).  Executing a nil template panics.  The errors of `Execute` and
`Flush` are discarded; writing to a nil file fails and changes nothing. -/
def executeInto (t : Option Template) (c : Configs) (f : Option String) (w : World) : Go World :=
  match t with
  | none => Except.error (Panic.nilPointer, w)
  | some t =>
    match f with
    | none => Except.ok w
    | some name => Except.ok { w with localFs := w.localFs.set name (some (execute w.markup t c).1) }

/-! ## The handlers -/

/-- What a handler reads of the HTTP request: the method and, after
`r.ParseForm()`, the values of each form field (none for a field that is
absent). -/
structure Request where
  Method : String
  Form : String → List String

/-- `r.Form[key][0]`: the first value of a field; indexing an absent field
panics. -/
def first (r : Request) (key : String) (w : World) : Go String :=
  match r.Form key with
  | [] => Except.error (Panic.indexOutOfRange, w)
  | v :: _ => Except.ok v

/-- The configuration record that `deploy` builds from the form (lines
179-187). -/
def deployConfigs (r : Request) (w : World) : Go Configs := do
  let ip ← first r "ip" w
  let workers ← first r "workers" w
  let domain ← first r "domain" w
  let interface ← first r "interface" w
  let ipapassword ← first r "ipapassword" w
  let memory ← first r "memory" w
  let appinterface ← first r "appinterface" w
  return { IP := ip
           Workers := workers
           Domain := domain
           CollectionInterface := interface
           IpaPassword := ipapassword
           ESRam := memory ++ "g"
           AppInterface := appinterface }

/-- What `deploy` leaves behind when it returns: the body written to the
response, the goroutines started, the world. -/
structure Deployed where
  body : String
  started : List Role
  world : World

/-- The handler of `/deploy` (lines 172-229). -/
def deploy (g : Globals) (r : Request) (w : World) : Go Deployed := do
  let w := println r.Method w
  if r.Method = "POST" then
    let c ← deployConfigs r w
    let t := w.parseFiles ("./" ++ g.SensorTemplate)
    let appTemplate := w.parseFiles ("./" ++ g.AppTemplate)
    let (appFile, w) := osCreate "./AppDeploy.sh" w
    let (f, w) := osCreate "./SensorDeploy.sh" w
    let w ← executeInto t c f w
    let w ← executeInto appTemplate c appFile w
    return { body := "Running Installation Scripts."
             started := [Role.sensor, Role.application]
             world := w }
  else
    return { body := "That isn't going to work.", started := [], world := w }

/-- The value a run returned, if it returned. -/
def returned {α : Type} : Go α → Option α
  | Except.ok a => some a
  | Except.error _ => none

/-- A POST of the configuration form, with the FreeIPA password `p&w` and 64
gigabytes of memory. -/
def postForm : Request :=
  { Method := "POST"
    Form := fun key =>
      if key = "ip" then ["192.168.1"]
      else if key = "workers" then ["4"]
      else if key = "domain" then ["example.local"]
      else if key = "interface" then ["eth1"]
      else if key = "ipapassword" then ["p&w"]
      else if key = "memory" then ["64"]
      else if key = "appinterface" then ["eth0"]
      else [] }

/-- A world with the two script templates: the sensor template sets a
variable to the FreeIPA password, the application template names the domain
and the memory. -/
def templateWorld : World :=
  { emptyWorld with
    parseFiles := fun name =>
      if name = "./SensorDeploy.gtpl" then
        some [Node.text "PASS=", Node.field "IpaPassword", Node.text "\n"]
      else if name = "./AppDeploy.gtpl" then
        some [Node.text "DOMAIN=", Node.field "Domain", Node.text " ES_HEAP=",
          Node.field "ESRam", Node.text "\n"]
      else none }

/-- A world whose sensor template names a field that `Configs` does not
have, and in which the application script cannot be created. -/
def brokenWorld : World :=
  { emptyWorld with
    readOnly := fun name => decide (name = "./AppDeploy.sh")
    parseFiles := fun name =>
      if name = "./SensorDeploy.gtpl" then
        some [Node.text "HOST=", Node.field "Hostname", Node.text "\n"]
      else if name = "./AppDeploy.gtpl" then
        some [Node.text "DOMAIN=", Node.field "Domain", Node.text "\n"]
      else none }

/-! ## getInterfaceList (lines 136-158) -/

/-- Split a text at every occurrence of the character `sep`; a text without
`sep`, the empty one included, gives one piece. -/
def splitOn (sep : Char) : List Char → List (List Char)
  | [] => [[]]
  | c :: cs =>
    if c = sep then [] :: splitOn sep cs
    else
      match splitOn sep cs with
      | [] => [[c]]
      | piece :: rest => (c :: piece) :: rest

/-- `strings.Split(s, sep)` for a separator of one character, which is what
both callers pass. -/
def Split (s : String) (sep : Char) : List String :=
  (splitOn sep s.data).map String.mk

/-- The class `\w` of the regular expressions of Go: an ASCII letter, an ASCII
digit or the underscore; `\W` is its complement. -/
def isWord (c : Char) : Bool := c.isAlphanum || c == '_'

/-- The character class `.` (without the `s` flag): anything but a newline. -/
def isDot (c : Char) : Bool := c != '\n'

/-- The ways `x*` can match at the start of the input, for a class `x`: the
text matched and the input left, in the order a backtracking search tries
them (the longest match first). -/
def star (cls : Char → Bool) : List Char → List (List Char × List Char)
  | [] => [([], [])]
  | c :: cs =>
    if cls c then (star cls cs).map (fun m => (c :: m.1, m.2)) ++ [([], c :: cs)]
    else [([], c :: cs)]

/-- The ways `x+` can match at the start of the input: `x` then `x*`. -/
def plus (cls : Char → Bool) : List Char → List (List Char × List Char)
  | [] => []
  | c :: cs => if cls c then (star cls cs).map (fun m => (c :: m.1, m.2)) else []

/-- The ways one character of the class `x` can match at the start of the
input: the input left. -/
def one (cls : Char → Bool) : List Char → List (List Char)
  | [] => []
  | c :: cs => if cls c then [cs] else []

/-- The expression of line 148, anchored at both ends: the texts captured by
the group for each way the whole input matches, in the order of a
backtracking search. -/
def re (s : List Char) : List (List Char) :=
  (star Char.isDigit s).flatMap fun digits =>
  (one (fun c => c == ':') digits.2).flatMap fun s1 =>
  (one (fun c => !isWord c) s1).flatMap fun s2 =>
  (plus Char.isAlphanum s2).flatMap fun name =>
  (one (fun c => c == ':') name.2).flatMap fun s3 =>
  (plus isDot s3).flatMap fun rest =>
  if rest.2 = [] then [name.1] else []

/-- `re.FindStringSubmatch(s)`: nil when `s` does not match, else the match
(the whole of `s`, the expression being anchored) and the text of the group,
for the first way to match. -/
def FindStringSubmatch (s : String) : List String :=
  match re s.data with
  | [] => []
  | name :: _ => [s, String.mk name]

/-- The order of `sort.Strings`: the comparison of Go strings, character by
character, a proper initial part coming first. -/
def lexLe : List Char → List Char → Bool
  | [], _ => true
  | _ :: _, [] => false
  | a :: as, b :: bs =>
    decide (a.toNat < b.toNat) || (decide (a.toNat = b.toNat) && lexLe as bs)

/-- The order of `sort.Strings` on strings. -/
def strLe (a b : String) : Prop := lexLe a.data b.data = true

instance : DecidableRel strLe :=
  fun a b => inferInstanceAs (Decidable (lexLe a.data b.data = true))

/-- `sort.Strings`. -/
def sortStrings (l : List String) : List String :=
  l.insertionSort strLe

/-- The loop of lines 147-154 over the lines of the output. -/
def matchLines (lines : List String) : List String :=
  lines.foldl
    (fun intList s =>
      let ooo := FindStringSubmatch s
      if ooo.length = 2 then intList ++ [ooo.getD 1 ""] else intList)
    []

/-- Gets an interface list from a server to display in the GUI. -/
def getInterfaceList (sc : ServerCred) (w : World) : Go (List String × World) := do
  let (sInt, w) ← remoteCommand sc "ip -o link show" w
  let intList := matchLines (Split sInt '\n')
  return (sortStrings intList, w)

/-- The form of a line as the specification words it: zero or more digits, a
colon, one non-word character, a name of one or more ASCII letters or digits,
a colon, a non-empty rest. -/
def LineForm (line name : String) : Prop :=
  ∃ digits rest : List Char, ∃ sep : Char,
    line.data = digits ++ ':' :: sep :: (name.data ++ ':' :: rest) ∧
    (∀ c ∈ digits, c.isDigit = true) ∧ isWord sep = false ∧
    name.data ≠ [] ∧ (∀ c ∈ name.data, c.isAlphanum = true) ∧ rest ≠ []

/-! ## configure (lines 248-302) -/

/-- `xs[i]`: indexing past the end panics. -/
def index (xs : List String) (i : Nat) (w : World) : Go String :=
  match xs.get? i with
  | none => Except.error (Panic.indexOutOfRange, w)
  | some x => Except.ok x

/-- What `configure` leaves behind when it returns: the package variables,
the data given to the page template (none when the request was no POST), the
world. -/
structure Configured where
  globals : Globals
  page : Option ServerConfigs
  world : World

/-- The handler of `/configure`.  On a panic the model keeps the world but
not the credentials assigned so far. -/
def configure (g : Globals) (r : Request) (w : World) : Go Configured := do
  if r.Method = "POST" then
    let ip ← first r "ip" w
    let user ← first r "user" w
    let password ← first r "password" w
    let g := { g with sensorCred := { IP := ip, User := user, Password := password } }
    let appip ← first r "appip" w
    let appuser ← first r "appuser" w
    let apppassword ← first r "apppassword" w
    let g := { g with appCred := { IP := appip, User := appuser, Password := apppassword } }
    let t := w.parseFiles "configure.gtpl"
    let (intList, w) ← getInterfaceList g.sensorCred w
    let (aIntList, w) ← getInterfaceList g.appCred w
    let octets := Split g.sensorCred.IP '.'
    let o0 ← index octets 0 w
    let o1 ← index octets 1 w
    let o2 ← index octets 2 w
    let ipSchema := o0 ++ "." ++ o1 ++ "." ++ o2
    let test : ServerConfigs := { Interface := intList, AppInterface := aIntList, IP := ipSchema }
    match t with
    | none => Except.error (Panic.nilPointer, w)
    | some _ => return { globals := g, page := some test, world := w }
  else
    return { globals := g, page := none, world := w }

/-- A world for `configure`: the page template exists, and the host
`192.168.1.10` answers the interface query with a loopback, two ethernet
interfaces and a virtual interface whose name has an `@`. -/
def linkWorld : World :=
  { emptyWorld with
    parseFiles := fun name => if name = "configure.gtpl" then some [] else none
    shell := fun host command fs =>
      if host = "192.168.1.10" ∧ command = "ip -o link show" then
        ("1: lo: <LOOPBACK,UP> mtu 65536\n3: eth1: <BROADCAST> mtu 1500\n2: eth0: <BROADCAST> mtu 1500\n4: veth1@if4: <BROADCAST> mtu 1500\n",
          fs)
      else ("", fs) }

/-- A POST of the credentials form. -/
def credForm : Request :=
  { Method := "POST"
    Form := fun key =>
      if key = "ip" then ["192.168.1.10"]
      else if key = "user" then ["root"]
      else if key = "password" then ["secret"]
      else if key = "appip" then ["10.0.7.20"]
      else if key = "appuser" then ["admin"]
      else if key = "apppassword" then ["hunter2"]
      else [] }

/-! ## Theorems -/

/-! ### Traces of `copyFile`, `remoteCommand` and the pipelines -/

theorem copyFile_trace (sc : ServerCred) (source destination : String) (w : World) :
    (∃ w', copyFile sc source destination w = Except.ok w'
        ∧ w'.trace = w.trace ++ [Event.copyFile sc source destination]
        ∧ w'.faults = w.faults.tail)
    ∨ (∃ p w', copyFile sc source destination w = Except.error (p, w')
        ∧ w'.trace = w.trace ++ [Event.copyFile sc source destination]
        ∧ (w.faults.headD Fault.none).handleObtained = false) := by
  simp only [copyFile, World.nextFault, World.record]
  generalize w.faults.headD Fault.none = f
  cases f <;> first
    | exact Or.inl ⟨_, rfl, rfl, rfl⟩
    | exact Or.inr ⟨_, _, rfl, rfl, rfl⟩

theorem remoteCommand_trace (sc : ServerCred) (command : String) (w : World) :
    (∃ out w', remoteCommand sc command w = Except.ok (out, w')
        ∧ w'.trace = w.trace ++ [Event.remoteCommand sc command]
        ∧ w'.faults = w.faults.tail)
    ∨ (∃ p w', remoteCommand sc command w = Except.error (p, w')
        ∧ w'.trace = w.trace ++ [Event.remoteCommand sc command]
        ∧ (w.faults.headD Fault.none).handleObtained = false) := by
  simp only [remoteCommand, World.nextFault, World.record]
  generalize w.faults.headD Fault.none = f
  cases f <;> first
    | exact Or.inl ⟨_, _, rfl, rfl, rfl⟩
    | exact Or.inr ⟨_, _, rfl, rfl, rfl⟩

theorem exists_fault_of_headD {l : List Fault} (n : Nat)
    (h : ((l.drop n).headD Fault.none).handleObtained = false) :
    ∃ f ∈ l, f.handleObtained = false := by
  cases hd : l.drop n with
  | nil => simp [hd, Fault.handleObtained] at h
  | cons a t =>
    refine ⟨a, ?_, by simpa [hd] using h⟩
    have : a ∈ l.drop n := by simp [hd]
    exact List.mem_of_mem_drop this

/-- A run of `steps` either completes, with the whole script appended to the
trace, or panics after an initial part of it, at an operation whose handle the
transport refused. -/
theorem steps_run (sc : ServerCred) (l1 a1 a2 c1 s1 s2 l2 l3 c2 l4 : String) (w : World) :
    (∃ w', steps sc l1 a1 a2 c1 s1 s2 l2 l3 c2 l4 w = Except.ok w'
        ∧ w'.trace = w.trace ++ script sc l1 a1 a2 c1 s1 s2 l2 l3 c2 l4)
    ∨ (∃ p w' k, steps sc l1 a1 a2 c1 s1 s2 l2 l3 c2 l4 w = Except.error (p, w')
        ∧ w'.trace = w.trace ++ (script sc l1 a1 a2 c1 s1 s2 l2 l3 c2 l4).take k
        ∧ ∃ f ∈ w.faults, f.handleObtained = false) := by
  simp only [steps, println, osRemove, World.record]
  rcases copyFile_trace sc a1 a2 { w with trace := w.trace ++ [Event.println l1] }
    with ⟨w1, h1, t1, f1⟩ | ⟨p, w1, h1, t1, hf⟩
  swap
  · right
    refine ⟨p, w1, 2, ?_, ?_, exists_fault_of_headD 0 (by simpa using hf)⟩
    · rw [h1]; rfl
    · simp [t1, script]
  rw [h1]
  rcases remoteCommand_trace sc c1 w1 with ⟨o2, w2, h2, t2, f2⟩ | ⟨p, w2, h2, t2, hf⟩
  swap
  · right
    refine ⟨p, w2, 3, ?_, ?_, exists_fault_of_headD 1 (by simpa [f1] using hf)⟩
    · simp only [bind, Except.bind]; rw [h2]
    · simp [t2, t1, script]
  simp only [bind, Except.bind]
  rw [h2]
  simp only []
  rcases copyFile_trace sc s1 s2 w2 with ⟨w3, h3, t3, f3⟩ | ⟨p, w3, h3, t3, hf⟩
  swap
  · right
    refine ⟨p, w3, 4, ?_, ?_, exists_fault_of_headD 2 (by simpa [f1, f2] using hf)⟩
    · rw [h3]
    · simp [t3, t2, t1, script]
  rw [h3]
  simp only []
  rcases remoteCommand_trace sc c2
      { w3 with localFs := Fs.set w3.localFs s1 none,
                trace := w3.trace ++ [Event.remove s1] ++ [Event.println l2] ++ [Event.println l3] }
    with ⟨o4, w4, h4, t4, f4⟩ | ⟨p, w4, h4, t4, hf⟩
  swap
  · right
    refine ⟨p, w4, 8, ?_, ?_, exists_fault_of_headD 3 (by simpa [f1, f2, f3] using hf)⟩
    · rw [h4]
    · simp [t4, t3, t2, t1, script]
  left
  rw [h4]
  refine ⟨_, rfl, ?_⟩
  simp [t4, t3, t2, t1, script]

theorem sensorPipeline_eq (g : Globals) : sensorPipeline g =
    steps g.sensorCred "Transferring Sensor files." ("./" ++ g.SensorFiles)
      ("/tmp/" ++ g.SensorFiles) ("tar xzvf /tmp/" ++ g.SensorFiles ++ " -C /tmp")
      "./SensorDeploy.sh" "/tmp/Sensor/SensorDeploy.sh" "Transferring Sensor files: Complete"
      "Sensor Server build started." "cd /tmp/Sensor; /bin/bash /tmp/Sensor/SensorDeploy.sh"
      "Sensor Server Deployed." := rfl

theorem appPipeline_eq (g : Globals) : appPipeline g =
    steps g.appCred "Transferring Application files." ("./" ++ g.AppFiles)
      ("/tmp/" ++ g.AppFiles) ("tar xzvf /tmp/" ++ g.AppFiles ++ " -C /tmp")
      "./AppDeploy.sh" "/tmp/application/AppDeploy.sh"
      "Transferring Application Server files: Complete"
      "Application Server build started."
      "cd /tmp/application; /bin/bash /tmp/Application/AppDeploy.sh"
      "Application Server Deployed." := rfl

theorem effects_append (a b : List Event) : effects (a ++ b) = effects a ++ effects b := by
  simp [effects]

/-- When every answer of the transport leaves the handles, a run of `steps`
completes and its calls are the five of the script, in order. -/
theorem steps_ok (sc : ServerCred) (l1 a1 a2 c1 s1 s2 l2 l3 c2 l4 : String) (w : World)
    (h : ∀ f ∈ w.faults, f.handleObtained = true) :
    ∃ w', steps sc l1 a1 a2 c1 s1 s2 l2 l3 c2 l4 w = Except.ok w'
      ∧ effects w'.trace = effects w.trace ++
        [ Event.copyFile sc a1 a2, Event.remoteCommand sc c1, Event.copyFile sc s1 s2,
          Event.remove s1, Event.remoteCommand sc c2 ] := by
  rcases steps_run sc l1 a1 a2 c1 s1 s2 l2 l3 c2 l4 w with ⟨w', hr, ht⟩ | ⟨_, _, _, _, _, f, hf, hb⟩
  · exact ⟨w', hr, by rw [ht, effects_append]; rfl⟩
  · rw [h f hf] at hb; exact absurd hb (by decide)

/-! ### The copy loop -/

theorem writeAt_length (file p : List Char) : writeAt file file.length p = file ++ p := by
  simp [writeAt]

theorem ioCopyLoop_append (maxPacket : Nat) (hpos : 0 < maxPacket) :
    ∀ (fuel : Nat) (src file : List Char), src.length < fuel →
      ioCopyLoop maxPacket fuel src file.length file = file ++ src := by
  intro fuel
  induction fuel with
  | zero => intro src file h; exact absurd h (Nat.not_lt_zero _)
  | succ fuel ih =>
    intro src file h
    cases src with
    | nil => simp [ioCopyLoop]
    | cons c cs =>
      obtain ⟨m, rfl⟩ : ∃ m, maxPacket = m + 1 := ⟨maxPacket - 1, by omega⟩
      have hlen : (List.drop (m + 1) (c :: cs)).length < fuel := by
        simp only [List.length_drop, List.length_cons] at h ⊢
        omega
      have := ih (List.drop (m + 1) (c :: cs)) (file ++ List.take (m + 1) (c :: cs)) hlen
      simp only [ioCopyLoop, List.take_succ_cons]
      rw [← List.length_append, writeAt_length]
      simpa [List.append_assoc] using this

theorem ioCopy_id (src : String) : ioCopy src = src := by
  obtain ⟨cs⟩ := src
  have := ioCopyLoop_append size (by decide) (cs.length + 1) cs [] (Nat.lt_succ_self _)
  simp only [List.length_nil, List.nil_append] at this
  show String.mk (ioCopyLoop size (cs.length + 1) cs 0 []) = String.mk cs
  rw [this]

theorem added_ok (w w' : World) (l : List Event) (h : w'.trace = w.trace ++ l) :
    added w (Except.ok w') = l := by
  simp [added, h]

theorem added_error (w w' : World) (p : Panic) (l : List Event) (h : w'.trace = w.trace ++ l) :
    added w (Except.error (p, w')) = l := by
  simp [added, h]

/-- Whatever the transport does, the events a run of `steps` adds are among
those of its script. -/
theorem steps_added_subset (sc : ServerCred) (l1 a1 a2 c1 s1 s2 l2 l3 c2 l4 : String) (w : World) :
    ∀ e ∈ added w (steps sc l1 a1 a2 c1 s1 s2 l2 l3 c2 l4 w),
      e ∈ script sc l1 a1 a2 c1 s1 s2 l2 l3 c2 l4 := by
  intro e he
  rcases steps_run sc l1 a1 a2 c1 s1 s2 l2 l3 c2 l4 w with ⟨w', hr, ht⟩ | ⟨p, w', k, hr, ht, _⟩
  · rw [hr, added_ok w w' _ ht] at he; exact he
  · rw [hr, added_error w w' p _ ht] at he; exact List.mem_of_mem_take he

/-! ### The claims about the pipelines -/

/-- C2 (evaluation of the code): with the archive name `App.tar.gz` the
application pipeline records one archive transfer to `/tmp/App.tar.gz`, one
extraction command, one script transfer to `/tmp/application/AppDeploy.sh` and
one execute command; the execute command runs `/tmp/Application/AppDeploy.sh`
and does not contain the path the script was transferred to, while the sensor
pipeline's execute command does contain its script's destination. -/
theorem appPipeline_executes_other_path :
    effects (traceOf (appPipeline main emptyWorld)) =
      [ Event.copyFile main.appCred "./App.tar.gz" "/tmp/App.tar.gz",
        Event.remoteCommand main.appCred "tar xzvf /tmp/App.tar.gz -C /tmp",
        Event.copyFile main.appCred "./AppDeploy.sh" "/tmp/application/AppDeploy.sh",
        Event.remove "./AppDeploy.sh",
        Event.remoteCommand main.appCred
          "cd /tmp/application; /bin/bash /tmp/Application/AppDeploy.sh" ] ∧
    ¬ mentions "cd /tmp/application; /bin/bash /tmp/Application/AppDeploy.sh"
        "/tmp/application/AppDeploy.sh" ∧
    mentions "cd /tmp/Sensor; /bin/bash /tmp/Sensor/SensorDeploy.sh"
        "/tmp/Sensor/SensorDeploy.sh" := by
  decide

/-- C3: whatever the two credentials, the world and the answers of the
transport, every call of the sensor pipeline carries the sensor credential,
names a sensor path and no application path, every call of the application
pipeline carries the application credential, names an application path and no
sensor path, and the run of one role's pipeline is the same when the other
role's credential is replaced. -/
theorem role_isolation (a s : ServerCred) (w : World) :
    (∀ e ∈ effects (added w (sensorPipeline { main with appCred := a, sensorCred := s } w)),
      (e.cred = none ∨ e.cred = some s) ∧
      ∀ t ∈ e.texts, (∃ m ∈ sensorPaths, mentions t m) ∧ ∀ m ∈ appPaths, ¬ mentions t m) ∧
    (∀ e ∈ effects (added w (appPipeline { main with appCred := a, sensorCred := s } w)),
      (e.cred = none ∨ e.cred = some a) ∧
      ∀ t ∈ e.texts, (∃ m ∈ appPaths, mentions t m) ∧ ∀ m ∈ sensorPaths, ¬ mentions t m) ∧
    (∀ a' : ServerCred,
      sensorPipeline { main with appCred := a', sensorCred := s } w
        = sensorPipeline { main with appCred := a, sensorCred := s } w) ∧
    (∀ s' : ServerCred,
      appPipeline { main with appCred := a, sensorCred := s' } w
        = appPipeline { main with appCred := a, sensorCred := s } w) := by
  refine ⟨?_, ?_, fun _ => rfl, fun _ => rfl⟩
  · intro e he
    have hmem := steps_added_subset _ _ _ _ _ _ _ _ _ _ _ w e
      (by rw [← sensorPipeline_eq]; exact List.mem_of_mem_filter he)
    have hcall : e ∈ effects (script _ _ _ _ _ _ _ _ _ _ _) :=
      List.mem_filter.mpr ⟨hmem, (List.mem_filter.mp he).2⟩
    simp only [script, effects, main, List.filter, List.mem_cons, List.mem_singleton,
      List.not_mem_nil, or_false] at hcall
    rcases hcall with rfl | rfl | rfl | rfl | rfl <;>
      exact ⟨by simp [Event.cred], by simp only [Event.texts]; decide⟩
  · intro e he
    have hmem := steps_added_subset _ _ _ _ _ _ _ _ _ _ _ w e
      (by rw [← appPipeline_eq]; exact List.mem_of_mem_filter he)
    have hcall : e ∈ effects (script _ _ _ _ _ _ _ _ _ _ _) :=
      List.mem_filter.mpr ⟨hmem, (List.mem_filter.mp he).2⟩
    simp only [script, effects, main, List.filter, List.mem_cons, List.mem_singleton,
      List.not_mem_nil, or_false] at hcall
    rcases hcall with rfl | rfl | rfl | rfl | rfl <;>
      exact ⟨by simp [Event.cred], by simp only [Event.texts]; decide⟩

/-- C5 (evaluation of the code): when `ssh.Dial` fails for the first transfer,
the discarded error leaves a nil connection and `copyFile` does not return
normally but panics at `defer conn.Close()`; the sensor pipeline stops there,
with the archive transfer as its only call, and none of the four later steps
is issued.  The same holds for `remoteCommand`. -/
theorem connection_failure_panics :
    panicked (copyFile main.sensorCred "./Sensor.tar.gz" "/tmp/Sensor.tar.gz"
      { emptyWorld with faults := [Fault.dial] }) = true ∧
    panicked (remoteCommand main.sensorCred "tar xzvf /tmp/Sensor.tar.gz -C /tmp"
      { emptyWorld with faults := [Fault.dial] }) = true ∧
    panicked (sensorPipeline main { emptyWorld with faults := [Fault.dial] }) = true ∧
    effects (traceOf (sensorPipeline main { emptyWorld with faults := [Fault.dial] })) =
      [ Event.copyFile main.sensorCred "./Sensor.tar.gz" "/tmp/Sensor.tar.gz" ] := by
  decide

/-- Where the error discarding does work: when the transport gives every
operation its handles, so that only the copies and the commands themselves
fail, `copyFile` and `remoteCommand` return normally and each pipeline issues
its five steps in order. -/
theorem pipeline_discards_errors (g : Globals) (w : World)
    (h : ∀ f ∈ w.faults, f.handleObtained = true) :
    (∀ sc source destination, ∃ w', copyFile sc source destination w = Except.ok w') ∧
    (∀ sc command, ∃ out w', remoteCommand sc command w = Except.ok (out, w')) ∧
    (∃ w', sensorPipeline g w = Except.ok w' ∧
      effects w'.trace = effects w.trace ++
        [ Event.copyFile g.sensorCred ("./" ++ g.SensorFiles) ("/tmp/" ++ g.SensorFiles),
          Event.remoteCommand g.sensorCred ("tar xzvf /tmp/" ++ g.SensorFiles ++ " -C /tmp"),
          Event.copyFile g.sensorCred "./SensorDeploy.sh" "/tmp/Sensor/SensorDeploy.sh",
          Event.remove "./SensorDeploy.sh",
          Event.remoteCommand g.sensorCred
            "cd /tmp/Sensor; /bin/bash /tmp/Sensor/SensorDeploy.sh" ]) ∧
    (∃ w', appPipeline g w = Except.ok w' ∧
      effects w'.trace = effects w.trace ++
        [ Event.copyFile g.appCred ("./" ++ g.AppFiles) ("/tmp/" ++ g.AppFiles),
          Event.remoteCommand g.appCred ("tar xzvf /tmp/" ++ g.AppFiles ++ " -C /tmp"),
          Event.copyFile g.appCred "./AppDeploy.sh" "/tmp/application/AppDeploy.sh",
          Event.remove "./AppDeploy.sh",
          Event.remoteCommand g.appCred
            "cd /tmp/application; /bin/bash /tmp/Application/AppDeploy.sh" ]) := by
  have hhead : (w.faults.headD Fault.none).handleObtained = true := by
    cases hw : w.faults with
    | nil => rfl
    | cons f t => exact h f (by simp [hw])
  refine ⟨?_, ?_, ?_, ?_⟩
  · intro sc source destination
    rcases copyFile_trace sc source destination w with ⟨w', hr, _⟩ | ⟨_, _, _, _, hb⟩
    · exact ⟨w', hr⟩
    · rw [hhead] at hb; exact absurd hb (by decide)
  · intro sc command
    rcases remoteCommand_trace sc command w with ⟨out, w', hr, _⟩ | ⟨_, _, _, _, hb⟩
    · exact ⟨out, w', hr⟩
    · rw [hhead] at hb; exact absurd hb (by decide)
  · rw [sensorPipeline_eq]
    exact steps_ok _ _ _ _ _ _ _ _ _ _ _ w h
  · rw [appPipeline_eq]
    exact steps_ok _ _ _ _ _ _ _ _ _ _ _ w h

/-- The pipelines in `failingWorld`, where every copy and command fails with
its handles obtained. -/
theorem pipeline_discards_errors_witness :
    (∀ f ∈ failingWorld.faults, f.handleObtained = true) ∧
    (∃ w', sensorPipeline main failingWorld = Except.ok w' ∧
      effects w'.trace = effects failingWorld.trace ++
        [ Event.copyFile main.sensorCred ("./" ++ main.SensorFiles) ("/tmp/" ++ main.SensorFiles),
          Event.remoteCommand main.sensorCred ("tar xzvf /tmp/" ++ main.SensorFiles ++ " -C /tmp"),
          Event.copyFile main.sensorCred "./SensorDeploy.sh" "/tmp/Sensor/SensorDeploy.sh",
          Event.remove "./SensorDeploy.sh",
          Event.remoteCommand main.sensorCred
            "cd /tmp/Sensor; /bin/bash /tmp/Sensor/SensorDeploy.sh" ]) :=
  ⟨by decide, (pipeline_discards_errors main failingWorld (by decide)).2.2.1⟩

/-- C7: when every operation of the transport succeeds, `copyFile` returns and
the content then read at the destination on the host is the content of the
local file, whatever the destination held before. -/
theorem copyFile_round_trip (sc : ServerCred) (source destination : String) (w : World)
    (content : String) (hsrc : w.localFs source = some content) (hfake : w.faults = []) :
    ∃ w', copyFile sc source destination w = Except.ok w' ∧
      w'.remoteFs sc.IP destination = some content := by
  simp only [copyFile, World.nextFault, World.record, hfake, List.headD_nil]
  refine ⟨_, rfl, ?_⟩
  simp [World.setRemote, Fs.set, hsrc, ioCopy_id]

/-- Witness of C7: the copy of `a.txt` over a longer remote file. -/
theorem copyFile_round_trip_witness :
    overwriteWorld.localFs "a.txt" = some "new" ∧ overwriteWorld.faults = [] ∧
    overwriteWorld.remoteFs "10.0.0.5" "/tmp/a.txt" = some "older and longer content" ∧
    ∃ w', copyFile ⟨"10.0.0.5", "root", "secret"⟩ "a.txt" "/tmp/a.txt" overwriteWorld
        = Except.ok w' ∧
      w'.remoteFs "10.0.0.5" "/tmp/a.txt" = some "new" :=
  ⟨by decide, rfl, by decide,
    copyFile_round_trip ⟨"10.0.0.5", "root", "secret"⟩ "a.txt" "/tmp/a.txt" overwriteWorld "new"
      (by decide) rfl⟩
/-! ### The renderer and deploy -/

/-- C4 (evaluation of the code): the renderer of `html/template` escapes.  A
FreeIPA password `p&w` is written `p&amp;w` into the script, by `execute` and
so by `deploy`; the same happens to `<`, `>`, the quotes and `+`. -/
theorem renderer_escapes_values :
    execute templateWorld.markup [Node.text "PASS=", Node.field "IpaPassword", Node.text "\n"]
        { IP := "", Workers := "", CollectionInterface := "", Domain := "",
          IpaPassword := "p&w", AppInterface := "", ESRam := "" }
      = ("PASS=p&amp;w\n", false) ∧
    htmlEscape "<a+b>" = "&lt;a&#43;b&gt;" ∧
    htmlEscape (String.mk [Char.ofNat 34, Char.ofNat 39]) = "&#34;&#39;" ∧
    ((returned (deploy main postForm templateWorld)).bind
        fun d => d.world.localFs "./SensorDeploy.sh") = some "PASS=p&amp;w\n" := by
  decide

/-- C6, as stated, fails: with a sensor template that names a field `Configs`
does not have, and an application script that cannot be created, `deploy`
returns as on success, with the same body, both pipelines started, a sensor
script cut at the missing field and no application script. -/
theorem deploy_ignores_render_failure :
    (execute brokenWorld.markup [Node.text "HOST=", Node.field "Hostname", Node.text "\n"]
        { IP := "192.168.1", Workers := "4", CollectionInterface := "eth1",
          Domain := "example.local", IpaPassword := "p&w", AppInterface := "eth0",
          ESRam := "64g" }).2 = true ∧
    (osCreate "./AppDeploy.sh" brokenWorld).1 = none ∧
    (returned (deploy main postForm brokenWorld)).map
        (fun d => (d.body, d.started, d.world.localFs "./SensorDeploy.sh",
          d.world.localFs "./AppDeploy.sh"))
      = some ("Running Installation Scripts.", [Role.sensor, Role.application],
          some "HOST=", none) := by
  decide

theorem deployConfigs_ok (r : Request) (w : World)
    (ip workers domain interface ipapassword memory appinterface : String)
    (ips ws ds is ps ms as : List String)
    (h1 : r.Form "ip" = ip :: ips) (h2 : r.Form "workers" = workers :: ws)
    (h3 : r.Form "domain" = domain :: ds) (h4 : r.Form "interface" = interface :: is)
    (h5 : r.Form "ipapassword" = ipapassword :: ps) (h6 : r.Form "memory" = memory :: ms)
    (h7 : r.Form "appinterface" = appinterface :: as) :
    deployConfigs r w = Except.ok
      { IP := ip, Workers := workers, Domain := domain, CollectionInterface := interface,
        IpaPassword := ipapassword, ESRam := memory ++ "g", AppInterface := appinterface } := by
  simp only [deployConfigs, first, h1, h2, h3, h4, h5, h6, h7]
  rfl

/-- Once the configuration record is built and both templates are parsed,
`deploy` returns, whatever the templates and the local files are. -/
theorem deploy_ok (g : Globals) (r : Request) (w : World) (c : Configs) (tS tA : Template)
    (hpost : r.Method = "POST")
    (hc : deployConfigs r (println r.Method w) = Except.ok c)
    (hS : w.parseFiles ("./" ++ g.SensorTemplate) = some tS)
    (hA : w.parseFiles ("./" ++ g.AppTemplate) = some tA) :
    ∃ w', deploy g r w = Except.ok
        { body := "Running Installation Scripts."
          started := [Role.sensor, Role.application]
          world := w' } ∧
      (w.readOnly "./SensorDeploy.sh" = false →
        w'.localFs "./SensorDeploy.sh" = some (execute w.markup tS c).1) ∧
      (w.readOnly "./AppDeploy.sh" = false →
        w'.localFs "./AppDeploy.sh" = some (execute w.markup tA c).1) ∧
      (w.readOnly "./SensorDeploy.sh" = true →
        w'.localFs "./SensorDeploy.sh" = w.localFs "./SensorDeploy.sh") ∧
      (w.readOnly "./AppDeploy.sh" = true →
        w'.localFs "./AppDeploy.sh" = w.localFs "./AppDeploy.sh") := by
  rw [hpost] at hc
  simp only [println, World.record] at hc
  cases h1 : w.readOnly "./AppDeploy.sh" <;> cases h2 : w.readOnly "./SensorDeploy.sh" <;>
    simp [deploy, hpost, hc, bind, Except.bind, println, World.record, hS, hA,
      osCreate, executeInto, pure, Except.pure, h1, h2, Fs.set]

theorem executePlain_error (t : Template) (c : Configs) :
    (executePlain t c).2 = missingField t c := by
  induction t with
  | nil => rfl
  | cons n rest ih =>
    cases n with
    | text s =>
      simp only [executePlain, missingField, List.any_cons, Bool.false_or] at ih ⊢
      exact ih
    | field name =>
      cases hf : c.field name with
      | none => simp [executePlain, missingField, hf]
      | some v =>
        simp only [executePlain, missingField, hf, List.any_cons, Option.isNone_some,
          Bool.false_or] at ih ⊢
        exact ih

/-- An action naming a field that `Configs` does not have makes `Execute`
return an error, whatever the text of the template. -/
theorem execute_error_of_missingField (markup : Template → Configs → String × Bool)
    (t : Template) (c : Configs) (h : missingField t c = true) :
    (execute markup t c).2 = true := by
  unfold execute
  split
  · rw [executePlain_error, h]
  · simp [h]

/-- C6, amended: on a POST with a complete form and both script templates
parsed, a template action that names a field `Configs` does not have makes
`Execute` return an error, and a script file that cannot be created makes
`os.Create` return no file; in either case the error is discarded: `deploy`
returns with the body of a successful run and both pipelines started. -/
theorem deploy_discards_render_errors (g : Globals) (r : Request) (w : World) (c : Configs)
    (tS tA : Template) (hpost : r.Method = "POST")
    (hc : deployConfigs r (println r.Method w) = Except.ok c)
    (hS : w.parseFiles ("./" ++ g.SensorTemplate) = some tS)
    (hA : w.parseFiles ("./" ++ g.AppTemplate) = some tA) :
    (missingField tS c = true → (execute w.markup tS c).2 = true) ∧
    (missingField tA c = true → (execute w.markup tA c).2 = true) ∧
    (∀ name, w.readOnly name = true → (osCreate name w).1 = none) ∧
    ∃ w', deploy g r w = Except.ok
        { body := "Running Installation Scripts."
          started := [Role.sensor, Role.application]
          world := w' } := by
  obtain ⟨w', hd, _⟩ := deploy_ok g r w c tS tA hpost hc hS hA
  refine ⟨execute_error_of_missingField _ tS c, execute_error_of_missingField _ tA c, ?_,
    w', hd⟩
  intro name hname
  simp [osCreate, hname]

/-- Witness of C6, amended: the POST of `postForm` in `brokenWorld`, whose
sensor template names the field `Hostname` and whose application script
cannot be created. -/
theorem deploy_discards_render_errors_witness :
    postForm.Method = "POST" ∧
    missingField [Node.text "HOST=", Node.field "Hostname", Node.text "\n"]
      { IP := "192.168.1", Workers := "4", CollectionInterface := "eth1",
        Domain := "example.local", IpaPassword := "p&w", AppInterface := "eth0",
        ESRam := "64g" } = true ∧
    brokenWorld.readOnly "./AppDeploy.sh" = true ∧
    (missingField [Node.text "HOST=", Node.field "Hostname", Node.text "\n"]
        { IP := "192.168.1", Workers := "4", CollectionInterface := "eth1",
          Domain := "example.local", IpaPassword := "p&w", AppInterface := "eth0",
          ESRam := "64g" } = true →
      (execute brokenWorld.markup [Node.text "HOST=", Node.field "Hostname", Node.text "\n"]
        { IP := "192.168.1", Workers := "4", CollectionInterface := "eth1",
          Domain := "example.local", IpaPassword := "p&w", AppInterface := "eth0",
          ESRam := "64g" }).2 = true) ∧
    (missingField [Node.text "DOMAIN=", Node.field "Domain", Node.text "\n"]
        { IP := "192.168.1", Workers := "4", CollectionInterface := "eth1",
          Domain := "example.local", IpaPassword := "p&w", AppInterface := "eth0",
          ESRam := "64g" } = true →
      (execute brokenWorld.markup [Node.text "DOMAIN=", Node.field "Domain", Node.text "\n"]
        { IP := "192.168.1", Workers := "4", CollectionInterface := "eth1",
          Domain := "example.local", IpaPassword := "p&w", AppInterface := "eth0",
          ESRam := "64g" }).2 = true) ∧
    (∀ name, brokenWorld.readOnly name = true → (osCreate name brokenWorld).1 = none) ∧
    ∃ w', deploy main postForm brokenWorld = Except.ok
        { body := "Running Installation Scripts."
          started := [Role.sensor, Role.application]
          world := w' } :=
  ⟨rfl, by decide, by decide,
    deploy_discards_render_errors main postForm brokenWorld _ _ _ rfl rfl rfl rfl⟩

theorem htmlEscapeChar_digit (ch : Char) (h : ch.isDigit = true) : htmlEscapeChar ch = [ch] := by
  unfold htmlEscapeChar
  split_ifs with h0 h1 h2 h3 h4 h5 h6 <;>
    first
      | rfl
      | (subst_vars; exact absurd h (by decide))

theorem flatMap_htmlEscapeChar_digits (l : List Char) (h : ∀ ch ∈ l, ch.isDigit = true) :
    l.flatMap htmlEscapeChar = l := by
  induction l with
  | nil => rfl
  | cons a t ih =>
    have ha := htmlEscapeChar_digit a (h a (by simp))
    have ht := ih (fun ch hch => h ch (by simp [hch]))
    simp [List.flatMap_cons, ha, ht]

/-- C8: on a POST whose form has all seven configuration fields, `deploy`
builds the record with the first value of `ip`, `workers`, `domain`,
`interface`, `ipapassword` and `appinterface` unchanged and the first value of
`memory` followed by `g`, whatever the values are; both scripts are rendered
from this record, and a memory value made of digits, in or out of 2-31, is
written to a script as it is, followed by `g`. -/
theorem deploy_builds_configs (g : Globals) (r : Request) (w : World)
    (ip workers domain interface ipapassword memory appinterface : String)
    (ips ws ds is ps ms as : List String) (tS tA : Template)
    (hpost : r.Method = "POST")
    (h1 : r.Form "ip" = ip :: ips) (h2 : r.Form "workers" = workers :: ws)
    (h3 : r.Form "domain" = domain :: ds) (h4 : r.Form "interface" = interface :: is)
    (h5 : r.Form "ipapassword" = ipapassword :: ps) (h6 : r.Form "memory" = memory :: ms)
    (h7 : r.Form "appinterface" = appinterface :: as)
    (hS : w.parseFiles ("./" ++ g.SensorTemplate) = some tS)
    (hA : w.parseFiles ("./" ++ g.AppTemplate) = some tA)
    (hwS : w.readOnly "./SensorDeploy.sh" = false)
    (hwA : w.readOnly "./AppDeploy.sh" = false) :
    ∃ c : Configs,
      c = { IP := ip, Workers := workers, Domain := domain, CollectionInterface := interface,
            IpaPassword := ipapassword, ESRam := memory ++ "g", AppInterface := appinterface } ∧
      deployConfigs r w = Except.ok c ∧
      (∃ d, deploy g r w = Except.ok d ∧
        d.world.localFs "./SensorDeploy.sh" = some (execute w.markup tS c).1 ∧
        d.world.localFs "./AppDeploy.sh" = some (execute w.markup tA c).1) ∧
      ((∀ ch ∈ memory.data, ch.isDigit = true) →
        execute w.markup [Node.field "ESRam"] c = (memory ++ "g", false)) := by
  refine ⟨_, rfl, deployConfigs_ok r w _ _ _ _ _ _ _ _ _ _ _ _ _ _ h1 h2 h3 h4 h5 h6 h7, ?_, ?_⟩
  · obtain ⟨w', hd, hs, ha, _, _⟩ := deploy_ok g r w _ tS tA hpost
      (deployConfigs_ok r _ _ _ _ _ _ _ _ _ _ _ _ _ _ _ h1 h2 h3 h4 h5 h6 h7) hS hA
    exact ⟨_, hd, hs hwS, ha hwA⟩
  · intro hdig
    have hg : htmlEscape (memory ++ "g") = memory ++ "g" := by
      unfold htmlEscape
      rw [String.data_append, List.flatMap_append, flatMap_htmlEscapeChar_digits _ hdig]
      rfl
    simp [execute, plain, executePlain, Configs.field, hg]

/-- Witness of C8: the POST of `postForm`, whose memory value is 64, in
`templateWorld`. -/
theorem deploy_builds_configs_witness :
    postForm.Method = "POST" ∧ postForm.Form "memory" = ["64"] ∧
    ∃ c : Configs,
      c = { IP := "192.168.1", Workers := "4", Domain := "example.local",
            CollectionInterface := "eth1", IpaPassword := "p&w", ESRam := "64" ++ "g",
            AppInterface := "eth0" } ∧
      deployConfigs postForm templateWorld = Except.ok c ∧
      (∃ d, deploy main postForm templateWorld = Except.ok d ∧
        d.world.localFs "./SensorDeploy.sh" =
          some (execute templateWorld.markup
            [Node.text "PASS=", Node.field "IpaPassword", Node.text "\n"] c).1 ∧
        d.world.localFs "./AppDeploy.sh" =
          some (execute templateWorld.markup [Node.text "DOMAIN=", Node.field "Domain",
            Node.text " ES_HEAP=", Node.field "ESRam", Node.text "\n"] c).1) ∧
      ((∀ ch ∈ "64".data, ch.isDigit = true) →
        execute templateWorld.markup [Node.field "ESRam"] c = ("64" ++ "g", false)) :=
  ⟨rfl, rfl, deploy_builds_configs main postForm templateWorld "192.168.1" "4" "example.local"
    "eth1" "p&w" "64" "eth0" [] [] [] [] [] [] [] _ _ rfl rfl rfl rfl rfl rfl rfl rfl rfl rfl
    rfl rfl⟩
/-! ### The regular expression of getInterfaceList -/

theorem mem_star (cls : Char → Bool) (s p r : List Char) :
    (p, r) ∈ star cls s ↔ s = p ++ r ∧ ∀ c ∈ p, cls c = true := by
  induction s generalizing p r with
  | nil =>
    simp only [star, List.mem_singleton, Prod.mk.injEq]
    constructor
    · rintro ⟨rfl, rfl⟩; simp
    · rintro ⟨h, _⟩
      have := List.append_eq_nil.mp h.symm
      exact this
  | cons c cs ih =>
    by_cases hc : cls c = true
    · simp only [star, hc, if_true, List.mem_append, List.mem_map, List.mem_singleton,
        Prod.mk.injEq, Prod.exists]
      constructor
      · rintro (⟨p', r', hm, rfl, rfl⟩ | ⟨rfl, rfl⟩)
        · obtain ⟨rfl, hall⟩ := (ih p' r').mp hm
          refine ⟨rfl, ?_⟩
          intro x hx
          rcases List.mem_cons.mp hx with rfl | hx
          · exact hc
          · exact hall x hx
        · simp
      · rintro ⟨h, hall⟩
        cases p with
        | nil => right; exact ⟨rfl, by simpa using h.symm⟩
        | cons a p' =>
          left
          simp only [List.cons_append, List.cons.injEq] at h
          obtain ⟨rfl, rfl⟩ := h
          exact ⟨p', r, (ih p' r).mpr ⟨rfl, fun x hx => hall x (List.mem_cons_of_mem _ hx)⟩,
            rfl, rfl⟩
    · have hc' : cls c = false := by simpa using hc
      simp only [star, hc', Bool.false_eq_true, if_false, List.mem_singleton, Prod.mk.injEq]
      constructor
      · rintro ⟨rfl, rfl⟩; simp
      · rintro ⟨h, hall⟩
        cases p with
        | nil => exact ⟨rfl, by simpa using h.symm⟩
        | cons a p' =>
          simp only [List.cons_append, List.cons.injEq] at h
          obtain ⟨rfl, rfl⟩ := h
          exact absurd (hall c (List.mem_cons_self _ _)) hc

theorem mem_plus (cls : Char → Bool) (s p r : List Char) :
    (p, r) ∈ plus cls s ↔ s = p ++ r ∧ p ≠ [] ∧ ∀ c ∈ p, cls c = true := by
  cases s with
  | nil =>
    simp only [plus, List.not_mem_nil, false_iff, not_and]
    intro h hp
    exact absurd (List.append_eq_nil.mp h.symm).1 hp
  | cons c cs =>
    by_cases hc : cls c = true
    · simp only [plus, hc, if_true, List.mem_map, Prod.mk.injEq, Prod.exists]
      constructor
      · rintro ⟨p', r', hm, rfl, rfl⟩
        obtain ⟨rfl, hall⟩ := (mem_star cls cs p' r').mp hm
        refine ⟨rfl, by simp, ?_⟩
        intro x hx
        rcases List.mem_cons.mp hx with rfl | hx
        · exact hc
        · exact hall x hx
      · rintro ⟨h, hp, hall⟩
        cases p with
        | nil => exact absurd rfl hp
        | cons a p' =>
          simp only [List.cons_append, List.cons.injEq] at h
          obtain ⟨rfl, rfl⟩ := h
          exact ⟨p', r, (mem_star cls _ p' r).mpr
            ⟨rfl, fun x hx => hall x (List.mem_cons_of_mem _ hx)⟩, rfl, rfl⟩
    · have hc' : cls c = false := by simpa using hc
      simp only [plus, hc', Bool.false_eq_true, if_false, List.not_mem_nil, false_iff, not_and]
      intro h hp hall
      cases p with
      | nil => exact hp rfl
      | cons a p' =>
        simp only [List.cons_append, List.cons.injEq] at h
        obtain ⟨rfl, rfl⟩ := h
        exact hc (hall c (List.mem_cons_self _ _))

theorem mem_one (cls : Char → Bool) (s r : List Char) :
    r ∈ one cls s ↔ ∃ c, s = c :: r ∧ cls c = true := by
  cases s with
  | nil => simp [one]
  | cons c cs =>
    by_cases hc : cls c = true
    · simp only [one, hc, if_true, List.mem_singleton, List.cons.injEq]
      constructor
      · rintro rfl; exact ⟨c, ⟨rfl, rfl⟩, hc⟩
      · rintro ⟨c', ⟨rfl, rfl⟩, _⟩; rfl
    · have hc' : cls c = false := by simpa using hc
      simp only [one, hc', Bool.false_eq_true, if_false, List.not_mem_nil, false_iff,
        not_exists, not_and, List.cons.injEq]
      rintro c' ⟨rfl, rfl⟩
      exact hc

/-- The source-level expression matches exactly the texts of the shape it
spells out. -/
theorem mem_re (s name : List Char) :
    name ∈ re s ↔ ∃ digits rest : List Char, ∃ sep : Char,
      s = digits ++ ':' :: sep :: (name ++ ':' :: rest) ∧
      (∀ c ∈ digits, c.isDigit = true) ∧ isWord sep = false ∧
      name ≠ [] ∧ (∀ c ∈ name, c.isAlphanum = true) ∧ rest ≠ [] ∧
      ∀ c ∈ rest, isDot c = true := by
  simp only [re, List.mem_flatMap, Prod.exists, mem_star, mem_one, mem_plus]
  constructor
  · rintro ⟨digits, s0, ⟨rfl, hd⟩, s1, ⟨c1, rfl, hc1⟩, s2, ⟨sep, rfl, hsep⟩, nm, s3,
      ⟨rfl, hne, hnm⟩, s4, ⟨c2, rfl, hc2⟩, rest, s5, ⟨rfl, hrne, hrest⟩, hmem⟩
    have h1 : c1 = ':' := by simpa using hc1
    have h2 : c2 = ':' := by simpa using hc2
    subst h1 h2
    by_cases h5 : s5 = []
    · subst h5
      simp only [if_true, List.mem_singleton] at hmem
      subst hmem
      exact ⟨digits, rest, sep, by simp, hd, by simpa using hsep, hne, hnm, hrne, hrest⟩
    · simp [h5] at hmem
  · rintro ⟨digits, rest, sep, rfl, hd, hsep, hne, hnm, hrne, hrest⟩
    exact ⟨digits, _, ⟨rfl, hd⟩, _, ⟨':', rfl, by simp⟩, _, ⟨sep, rfl, by simp [hsep]⟩,
      name, _, ⟨rfl, hne, hnm⟩, _, ⟨':', rfl, by simp⟩, rest, [], ⟨by simp, hrne, hrest⟩,
      by simp⟩
theorem append_cons_inj_of_not_mem {a : Char} :
    ∀ {l1 l2 r1 r2 : List Char}, a ∉ l1 → a ∉ l2 → l1 ++ a :: r1 = l2 ++ a :: r2 →
      l1 = l2 ∧ r1 = r2 := by
  intro l1
  induction l1 with
  | nil =>
    intro l2 r1 r2 _ h2 h
    cases l2 with
    | nil => simpa using h
    | cons b t =>
      simp only [List.nil_append, List.cons_append, List.cons.injEq] at h
      exact absurd (h.1 ▸ List.mem_cons_self _ _) h2
  | cons x t ih =>
    intro l2 r1 r2 h1 h2 h
    cases l2 with
    | nil =>
      simp only [List.nil_append, List.cons_append, List.cons.injEq] at h
      exact absurd (h.1 ▸ List.mem_cons_self _ _) h1
    | cons b t2 =>
      simp only [List.cons_append, List.cons.injEq] at h
      obtain ⟨rfl, h⟩ := h
      obtain ⟨rfl, rfl⟩ := ih (fun hm => h1 (List.mem_cons_of_mem _ hm))
        (fun hm => h2 (List.mem_cons_of_mem _ hm)) h
      exact ⟨rfl, rfl⟩

theorem colon_not_mem_of_isDigit {l : List Char} (h : ∀ c ∈ l, c.isDigit = true) :
    ':' ∉ l :=
  fun hm => absurd (h _ hm) (by decide)

theorem colon_not_mem_of_isAlphanum {l : List Char} (h : ∀ c ∈ l, c.isAlphanum = true) :
    ':' ∉ l :=
  fun hm => absurd (h _ hm) (by decide)

/-- The expression is unambiguous: all the ways to match capture the same
name. -/
theorem re_unique (s n1 n2 : List Char) (h1 : n1 ∈ re s) (h2 : n2 ∈ re s) : n1 = n2 := by
  obtain ⟨d1, r1, c1, e1, hd1, _, _, hn1, _, _⟩ := (mem_re s n1).mp h1
  obtain ⟨d2, r2, c2, e2, hd2, _, _, hn2, _, _⟩ := (mem_re s n2).mp h2
  rw [e1] at e2
  obtain ⟨_, e3⟩ := append_cons_inj_of_not_mem (colon_not_mem_of_isDigit hd1)
    (colon_not_mem_of_isDigit hd2) e2
  simp only [List.cons.injEq] at e3
  exact (append_cons_inj_of_not_mem (colon_not_mem_of_isAlphanum hn1)
    (colon_not_mem_of_isAlphanum hn2) e3.2).1

theorem head?_re_eq_some (s name : List Char) :
    (re s).head? = some name ↔ name ∈ re s := by
  constructor
  · intro h
    exact List.mem_of_mem_head? h
  · intro h
    cases hre : re s with
    | nil => rw [hre] at h; exact absurd h (List.not_mem_nil _)
    | cons a t =>
      have ha : a ∈ re s := by rw [hre]; exact List.mem_cons_self _ _
      rw [re_unique s name a h ha]
      rfl

theorem not_mem_of_mem_splitOn (sep : Char) (l : List Char) :
    ∀ piece ∈ splitOn sep l, sep ∉ piece := by
  induction l with
  | nil => simp [splitOn]
  | cons c cs ih =>
    intro piece hp
    by_cases hc : c = sep
    · simp only [splitOn, hc, if_true, List.mem_cons] at hp
      rcases hp with rfl | hp
      · simp
      · exact ih piece hp
    · simp only [splitOn, hc, if_false] at hp
      cases hs : splitOn sep cs with
      | nil => simp [hs] at hp; subst hp; simpa using fun h => hc h.symm
      | cons a t =>
        rw [hs] at hp ih
        simp only [List.mem_cons] at hp
        rcases hp with rfl | hp
        · intro hm
          rcases List.mem_cons.mp hm with h | h
          · exact hc h.symm
          · exact ih a (List.mem_cons_self _ _) h
        · exact ih piece (List.mem_cons_of_mem _ hp)

/-- The loop of getInterfaceList keeps, in order, the name captured on each
line that matches. -/
theorem foldl_matchLines (lines : List String) (acc : List String) :
    lines.foldl
      (fun intList s =>
        let ooo := FindStringSubmatch s
        if ooo.length = 2 then intList ++ [ooo.getD 1 ""] else intList) acc
    = acc ++ lines.filterMap (fun line => (re line.data).head?.map String.mk) := by
  induction lines generalizing acc with
  | nil => simp
  | cons s t ih =>
    rw [List.foldl_cons, ih]
    cases hre : re s.data with
    | nil => simp [FindStringSubmatch, hre, List.filterMap_cons]
    | cons a r => simp [FindStringSubmatch, hre, List.filterMap_cons]

theorem matchLines_eq (lines : List String) :
    matchLines lines = lines.filterMap (fun line => (re line.data).head?.map String.mk) := by
  unfold matchLines
  rw [foldl_matchLines]
  rfl

/-! ### The order of sort.Strings -/

theorem lexLe_total : ∀ a b : List Char, lexLe a b = true ∨ lexLe b a = true := by
  intro a
  induction a with
  | nil => intro b; left; cases b <;> rfl
  | cons x xs ih =>
    intro b
    cases b with
    | nil => right; rfl
    | cons y ys =>
      simp only [lexLe, Bool.or_eq_true, Bool.and_eq_true, decide_eq_true_eq]
      rcases Nat.lt_trichotomy x.toNat y.toNat with h | h | h
      · exact Or.inl (Or.inl h)
      · rcases ih ys with h' | h'
        · exact Or.inl (Or.inr ⟨h, h'⟩)
        · exact Or.inr (Or.inr ⟨h.symm, h'⟩)
      · exact Or.inr (Or.inl h)

theorem lexLe_trans : ∀ a b c : List Char, lexLe a b = true → lexLe b c = true →
    lexLe a c = true := by
  intro a
  induction a with
  | nil => intro b c _ _; cases c <;> rfl
  | cons x xs ih =>
    intro b c hab hbc
    cases b with
    | nil => simp [lexLe] at hab
    | cons y ys =>
      cases c with
      | nil => simp [lexLe] at hbc
      | cons z zs =>
        simp only [lexLe, Bool.or_eq_true, Bool.and_eq_true, decide_eq_true_eq] at hab hbc ⊢
        rcases hab with h1 | ⟨h1, h1'⟩ <;> rcases hbc with h2 | ⟨h2, h2'⟩
        · exact Or.inl (Nat.lt_trans h1 h2)
        · exact Or.inl (h2 ▸ h1)
        · exact Or.inl (h1 ▸ h2)
        · exact Or.inr ⟨h1.trans h2, ih ys zs h1' h2'⟩

theorem sortStrings_sorted (l : List String) : (sortStrings l).Sorted strLe :=
  @List.sorted_insertionSort String strLe _ ⟨fun a b => lexLe_total a.data b.data⟩
    ⟨fun a b c => lexLe_trans a.data b.data c.data⟩ l

theorem sortStrings_perm (l : List String) : (sortStrings l).Perm l :=
  List.perm_insertionSort strLe l
/-! ### getInterfaceList -/

theorem remoteCommand_ok (sc : ServerCred) (command : String) (w : World)
    (hok : (w.faults.headD Fault.none).handleObtained = true) :
    ∃ w', remoteCommand sc command w =
        Except.ok ((w.shell sc.IP command (w.remoteFs sc.IP)).1, w') ∧
      w'.faults = w.faults.tail ∧ w'.parseFiles = w.parseFiles ∧ w'.shell = w.shell := by
  simp only [remoteCommand, World.nextFault, World.record]
  generalize w.faults.headD Fault.none = f at hok
  cases f <;> first
    | exact ⟨_, rfl, rfl, rfl, rfl⟩
    | exact absurd hok (by decide)

theorem getInterfaceList_ok (sc : ServerCred) (w : World)
    (hok : (w.faults.headD Fault.none).handleObtained = true) :
    ∃ w', getInterfaceList sc w =
        Except.ok (sortStrings (matchLines
          (Split (w.shell sc.IP "ip -o link show" (w.remoteFs sc.IP)).1 '\n')), w') ∧
      w'.faults = w.faults.tail ∧ w'.parseFiles = w.parseFiles ∧ w'.shell = w.shell := by
  obtain ⟨w', hr, hf, hp, hs⟩ := remoteCommand_ok sc "ip -o link show" w hok
  refine ⟨w', ?_, hf, hp, hs⟩
  simp only [getInterfaceList, bind, Except.bind, hr]
  rfl

/-- On a line without a newline, the first capture of the expression is the
name of the line's form as the specification words it. -/
theorem nameOf_iff_lineForm (line name : String) (hnl : '\n' ∉ line.data) :
    (re line.data).head?.map String.mk = some name ↔ LineForm line name := by
  have hkey : (re line.data).head?.map String.mk = some name ↔ name.data ∈ re line.data := by
    rw [← head?_re_eq_some]
    constructor
    · intro h
      obtain ⟨n, hn, rfl⟩ := Option.map_eq_some'.mp h
      exact hn
    · intro h
      rw [h]
      rfl
  rw [hkey, mem_re]
  unfold LineForm
  constructor
  · rintro ⟨digits, rest, sep, e, hd, hsep, hne, hnm, hrne, _⟩
    exact ⟨digits, rest, sep, e, hd, hsep, hne, hnm, hrne⟩
  · rintro ⟨digits, rest, sep, e, hd, hsep, hne, hnm, hrne⟩
    refine ⟨digits, rest, sep, e, hd, hsep, hne, hnm, hrne, ?_⟩
    intro c hc
    have hmem : c ∈ line.data := by
      rw [e]
      simp [hc]
    have hcn : c ≠ '\n' := fun h => hnl (h ▸ hmem)
    simp [isDot, hcn]

/-- C10: for every text the remote `ip -o link show` returns,
`getInterfaceList` returns a list that is sorted in ascending order and is a
permutation of the names of the lines of the form digits, colon, one non-word
character, an alphanumeric name, colon, non-empty rest, one entry per such
line; a line of any other form gives nothing, and every name returned is
non-empty and alphanumeric. -/
theorem getInterfaceList_sorted_names (sc : ServerCred) (w : World)
    (hok : (w.faults.headD Fault.none).handleObtained = true) :
    ∃ names w', getInterfaceList sc w = Except.ok (names, w') ∧
      names.Sorted strLe ∧
      (∃ nameOf : String → Option String,
        (∀ line ∈ Split (w.shell sc.IP "ip -o link show" (w.remoteFs sc.IP)).1 '\n',
          ∀ name, nameOf line = some name ↔ LineForm line name) ∧
        names.Perm
          ((Split (w.shell sc.IP "ip -o link show" (w.remoteFs sc.IP)).1 '\n').filterMap
            nameOf)) ∧
      ∀ n ∈ names, n ≠ "" ∧ ∀ c ∈ n.data, c.isAlphanum = true := by
  obtain ⟨w', hr, _⟩ := getInterfaceList_ok sc w hok
  refine ⟨_, w', hr, sortStrings_sorted _,
    ⟨fun line => (re line.data).head?.map String.mk, ?_, ?_⟩, ?_⟩
  · intro line hline name
    apply nameOf_iff_lineForm
    obtain ⟨piece, hp, rfl⟩ := List.mem_map.mp hline
    exact not_mem_of_mem_splitOn '\n' _ piece hp
  · rw [← matchLines_eq]
    exact sortStrings_perm _
  · intro n hn
    have hn' : n ∈ matchLines
        (Split (w.shell sc.IP "ip -o link show" (w.remoteFs sc.IP)).1 '\n') :=
      (sortStrings_perm _).subset hn
    rw [matchLines_eq] at hn'
    obtain ⟨line, _, hline⟩ := List.mem_filterMap.mp hn'
    obtain ⟨m, hm, rfl⟩ := Option.map_eq_some'.mp hline
    obtain ⟨_, _, _, _, _, _, hne, hal, _⟩ := (mem_re _ _).mp (List.mem_of_mem_head? hm)
    refine ⟨?_, hal⟩
    intro h
    exact hne (congrArg String.data h)

/-- Witness of C10: the interface query of `linkWorld`, whose answer has the
lines of `lo`, `eth1`, `eth0` and `veth1@if4`. -/
theorem getInterfaceList_sorted_names_witness :
    (linkWorld.faults.headD Fault.none).handleObtained = true ∧
    (returned (getInterfaceList ⟨"192.168.1.10", "root", "secret"⟩ linkWorld)).map
      (fun p => p.1) = some ["eth0", "eth1", "lo"] ∧
    ∃ names w', getInterfaceList ⟨"192.168.1.10", "root", "secret"⟩ linkWorld
        = Except.ok (names, w') ∧
      names.Sorted strLe ∧
      (∃ nameOf : String → Option String,
        (∀ line ∈ Split (linkWorld.shell "192.168.1.10" "ip -o link show"
            (linkWorld.remoteFs "192.168.1.10")).1 '\n',
          ∀ name, nameOf line = some name ↔ LineForm line name) ∧
        names.Perm
          ((Split (linkWorld.shell "192.168.1.10" "ip -o link show"
            (linkWorld.remoteFs "192.168.1.10")).1 '\n').filterMap nameOf)) ∧
      ∀ n ∈ names, n ≠ "" ∧ ∀ c ∈ n.data, c.isAlphanum = true :=
  ⟨by decide, by decide,
    getInterfaceList_sorted_names ⟨"192.168.1.10", "root", "secret"⟩ linkWorld (by decide)⟩
/-! ### configure -/

theorem splitOn_append_sep (sep : Char) (a rest : List Char) (ha : sep ∉ a) :
    splitOn sep (a ++ sep :: rest) = a :: splitOn sep rest := by
  induction a with
  | nil => simp [splitOn]
  | cons c cs ih =>
    have hc : c ≠ sep := fun h => ha (h ▸ List.mem_cons_self _ _)
    have ih' := ih (fun hm => ha (List.mem_cons_of_mem _ hm))
    show splitOn sep (c :: (cs ++ sep :: rest)) = (c :: cs) :: splitOn sep rest
    simp only [splitOn, hc, if_false, ih']

theorem Split_dotted (a b c rest : String) (ha : '.' ∉ a.data) (hb : '.' ∉ b.data)
    (hc : '.' ∉ c.data) :
    Split (a ++ "." ++ b ++ "." ++ c ++ "." ++ rest) '.' = a :: b :: c :: Split rest '.' := by
  have e : (a ++ "." ++ b ++ "." ++ c ++ "." ++ rest).data
      = a.data ++ '.' :: (b.data ++ '.' :: (c.data ++ '.' :: rest.data)) := by
    simp [String.data_append, List.append_assoc]
  unfold Split
  rw [e, splitOn_append_sep _ _ _ ha, splitOn_append_sep _ _ _ hb, splitOn_append_sep _ _ _ hc]
  rfl

theorem headD_handleObtained (l : List Fault) (h : ∀ f ∈ l, f.handleObtained = true) :
    (l.headD Fault.none).handleObtained = true := by
  cases l with
  | nil => rfl
  | cons f t => exact h f (List.mem_cons_self _ _)

/-- C9: on a POST with the six credential fields, when the sensor address
splits at the dots into at least three components, the indexing of `configure`
stays in range and the IP schema given to the configuration page is the first
three components joined by dots, so `a.b.c` for an address `a.b.c.d`; the
application address does not enter it. -/
theorem configure_ipSchema (g : Globals) (r : Request) (w : World)
    (ip user password appip appuser apppassword o0 o1 o2 : String)
    (r1 r2 r3 r4 r5 r6 more : List String) (t : Template)
    (hpost : r.Method = "POST")
    (h1 : r.Form "ip" = ip :: r1) (h2 : r.Form "user" = user :: r2)
    (h3 : r.Form "password" = password :: r3) (h4 : r.Form "appip" = appip :: r4)
    (h5 : r.Form "appuser" = appuser :: r5) (h6 : r.Form "apppassword" = apppassword :: r6)
    (ht : w.parseFiles "configure.gtpl" = some t)
    (hfaults : ∀ f ∈ w.faults, f.handleObtained = true)
    (hsplit : Split ip '.' = o0 :: o1 :: o2 :: more) :
    ∃ d page, configure g r w = Except.ok d ∧ d.page = some page ∧
      page.IP = o0 ++ "." ++ o1 ++ "." ++ o2 ∧
      ∀ a b c rest : String, '.' ∉ a.data → '.' ∉ b.data → '.' ∉ c.data →
        ip = a ++ "." ++ b ++ "." ++ c ++ "." ++ rest → page.IP = a ++ "." ++ b ++ "." ++ c := by
  obtain ⟨w1, e1, f1, _⟩ := getInterfaceList_ok ⟨ip, user, password⟩ w
    (headD_handleObtained _ hfaults)
  have hf1 : ∀ f ∈ w1.faults, f.handleObtained = true := by
    intro f hf
    rw [f1] at hf
    exact hfaults f (List.mem_of_mem_tail hf)
  obtain ⟨w2, e2, _⟩ := getInterfaceList_ok ⟨appip, appuser, apppassword⟩ w1
    (headD_handleObtained _ hf1)
  generalize sortStrings _ = i1 at e1
  generalize sortStrings _ = i2 at e2
  have hcfg : configure g r w = Except.ok
      { globals := { g with sensorCred := ⟨ip, user, password⟩,
                            appCred := ⟨appip, appuser, apppassword⟩ }
        page := some ⟨i1, i2, o0 ++ "." ++ o1 ++ "." ++ o2⟩
        world := w2 } := by
    simp only [configure, hpost, if_true, first, h1, h2, h3, h4, h5, h6, bind, Except.bind,
      e1, e2, hsplit, index, List.get?, ht, pure, Except.pure]
  refine ⟨_, _, hcfg, rfl, rfl, ?_⟩
  · intro a b c rest ha hb hc hip
    rw [hip, Split_dotted a b c rest ha hb hc] at hsplit
    simp only [List.cons.injEq] at hsplit
    obtain ⟨rfl, rfl, rfl, _⟩ := hsplit
    rfl

/-- Witness of C9: the POST of `credForm`, whose sensor address is
`192.168.1.10`, in `linkWorld`. -/
theorem configure_ipSchema_witness :
    credForm.Method = "POST" ∧ Split "192.168.1.10" '.' = ["192", "168", "1", "10"] ∧
    ∃ d page, configure main credForm linkWorld = Except.ok d ∧ d.page = some page ∧
      page.IP = "192" ++ "." ++ "168" ++ "." ++ "1" ∧
      ∀ a b c rest : String, '.' ∉ a.data → '.' ∉ b.data → '.' ∉ c.data →
        "192.168.1.10" = a ++ "." ++ b ++ "." ++ c ++ "." ++ rest →
          page.IP = a ++ "." ++ b ++ "." ++ c :=
  ⟨rfl, by decide,
    configure_ipSchema main credForm linkWorld "192.168.1.10" "root" "secret" "10.0.7.20"
      "admin" "hunter2" "192" "168" "1" [] [] [] [] [] [] ["10"] [] rfl rfl rfl rfl rfl rfl rfl
      rfl (by decide) (by decide)⟩

/-! ### deploy and the pipelines it starts -/

/-- What a returned `deploy` on a POST has done: both pipelines are started,
and the transport has not been used yet. -/
theorem deploy_post_started (g : Globals) (r : Request) (w : World) (d : Deployed)
    (hpost : r.Method = "POST") (hd : deploy g r w = Except.ok d) :
    d.started = [Role.sensor, Role.application] ∧ d.world.faults = w.faults := by
  simp only [deploy, hpost, if_true, bind, Except.bind, println, World.record, osCreate,
    executeInto, pure, Except.pure] at hd
  cases hc : deployConfigs r
      { w with trace := w.trace ++ [Event.println "POST"] } with
  | error e => rw [hc] at hd; cases hd
  | ok c =>
    rw [hc] at hd
    cases hS : w.parseFiles ("./" ++ g.SensorTemplate) with
    | none =>
      cases h1 : w.readOnly "./AppDeploy.sh" <;> cases h2 : w.readOnly "./SensorDeploy.sh" <;>
        simp [hS, h1, h2] at hd
    | some tS =>
      cases hA : w.parseFiles ("./" ++ g.AppTemplate) with
      | none =>
        cases h1 : w.readOnly "./AppDeploy.sh" <;> cases h2 : w.readOnly "./SensorDeploy.sh" <;>
          simp [hS, hA, h1, h2] at hd
      | some tA =>
        cases h1 : w.readOnly "./AppDeploy.sh" <;> cases h2 : w.readOnly "./SensorDeploy.sh" <;>
          simp [hS, hA, h1, h2] at hd <;> subst hd <;> exact ⟨rfl, rfl⟩

/-- C1: when `deploy` has returned on a POST, it has started the sensor and
the application pipeline, and on a session in which every call succeeds each
of the two runs to its end and the effects it records are exactly the
transfer of the role's archive, the run of the extraction command, the
transfer of the rendered script, the deletion of the local rendered script and
the run of the execute command, in this order, each once; so the execute
command comes after both transfers. -/
theorem pipeline_effects_in_order (g : Globals) (r : Request) (w : World) (d : Deployed)
    (hpost : r.Method = "POST") (hd : deploy g r w = Except.ok d) (hfake : w.faults = []) :
    d.started = [Role.sensor, Role.application] ∧
    (∃ w', pipeline g Role.sensor d.world = Except.ok w' ∧
      effects w'.trace = effects d.world.trace ++
        [ Event.copyFile g.sensorCred ("./" ++ g.SensorFiles) ("/tmp/" ++ g.SensorFiles),
          Event.remoteCommand g.sensorCred ("tar xzvf /tmp/" ++ g.SensorFiles ++ " -C /tmp"),
          Event.copyFile g.sensorCred "./SensorDeploy.sh" "/tmp/Sensor/SensorDeploy.sh",
          Event.remove "./SensorDeploy.sh",
          Event.remoteCommand g.sensorCred
            "cd /tmp/Sensor; /bin/bash /tmp/Sensor/SensorDeploy.sh" ]) ∧
    (∃ w', pipeline g Role.application d.world = Except.ok w' ∧
      effects w'.trace = effects d.world.trace ++
        [ Event.copyFile g.appCred ("./" ++ g.AppFiles) ("/tmp/" ++ g.AppFiles),
          Event.remoteCommand g.appCred ("tar xzvf /tmp/" ++ g.AppFiles ++ " -C /tmp"),
          Event.copyFile g.appCred "./AppDeploy.sh" "/tmp/application/AppDeploy.sh",
          Event.remove "./AppDeploy.sh",
          Event.remoteCommand g.appCred
            "cd /tmp/application; /bin/bash /tmp/Application/AppDeploy.sh" ]) := by
  obtain ⟨hstarted, hfaults⟩ := deploy_post_started g r w d hpost hd
  have h : ∀ f ∈ d.world.faults, f.handleObtained = true := by simp [hfaults, hfake]
  refine ⟨hstarted, ?_, ?_⟩
  · simp only [pipeline, sensorPipeline_eq]
    exact steps_ok _ _ _ _ _ _ _ _ _ _ _ d.world h
  · simp only [pipeline, appPipeline_eq]
    exact steps_ok _ _ _ _ _ _ _ _ _ _ _ d.world h

/-- Witness of C1: the POST of `postForm` in `templateWorld`, with the
credentials of `main`. -/
theorem pipeline_effects_in_order_witness :
    postForm.Method = "POST" ∧ templateWorld.faults = [] ∧
    ∃ d, deploy main postForm templateWorld = Except.ok d ∧
    d.started = [Role.sensor, Role.application] ∧
    (∃ w', pipeline main Role.sensor d.world = Except.ok w' ∧
      effects w'.trace = effects d.world.trace ++
        [ Event.copyFile main.sensorCred ("./" ++ main.SensorFiles) ("/tmp/" ++ main.SensorFiles),
          Event.remoteCommand main.sensorCred ("tar xzvf /tmp/" ++ main.SensorFiles ++ " -C /tmp"),
          Event.copyFile main.sensorCred "./SensorDeploy.sh" "/tmp/Sensor/SensorDeploy.sh",
          Event.remove "./SensorDeploy.sh",
          Event.remoteCommand main.sensorCred
            "cd /tmp/Sensor; /bin/bash /tmp/Sensor/SensorDeploy.sh" ]) ∧
    (∃ w', pipeline main Role.application d.world = Except.ok w' ∧
      effects w'.trace = effects d.world.trace ++
        [ Event.copyFile main.appCred ("./" ++ main.AppFiles) ("/tmp/" ++ main.AppFiles),
          Event.remoteCommand main.appCred ("tar xzvf /tmp/" ++ main.AppFiles ++ " -C /tmp"),
          Event.copyFile main.appCred "./AppDeploy.sh" "/tmp/application/AppDeploy.sh",
          Event.remove "./AppDeploy.sh",
          Event.remoteCommand main.appCred
            "cd /tmp/application; /bin/bash /tmp/Application/AppDeploy.sh" ]) :=
  ⟨rfl, rfl, _, rfl, pipeline_effects_in_order main postForm templateWorld _ rfl rfl rfl⟩

end Deploy
